import Mathlib

/-!
Verification of the auction-ticket cog (src/cogs/auctionpannel.py).

The development shallowly embeds the business logic of the cog:
numeric-amount parsing (parse_amount, lines 119-147), the item cache and
fuzzy lookup (update_items_cache / fuzzy_search_item, lines 93-114),
creation-time validation and ticket persistence (AuctionCreateModal.on_submit,
lines 187-331), bid editing (AuctionCog.edit_bid, lines 558-598), closing
(AuctionCog.close_auction, lines 600-641) and cancelling
(AuctionTicketView.cancel_button, lines 373-395).

Python arithmetic on quantities is arbitrary-precision integer arithmetic
(embedded as Int), except where the source multiplies by the literal 0.30 or
parses a decimal literal: these go through IEEE-754 double precision.  Doubles
are embedded as exact fractions (integer numerator, natural denominator)
together with an explicit round-to-nearest, ties-to-even rounding to 53
significant bits (normal range; the values handled by the cog are far away
from subnormals and from overflow).

The Discord SDK (channels, permissions, embeds) and the on-disk JSON files are
external collaborators: channel creation/deletion and persistence are modelled
as data returned by the transition functions.  The rapidfuzz scorer is an
external collaborator as well and is abstracted as a function parameter.
-/

namespace Auction

set_option maxRecDepth 16000

/-! ## Exact fractions

A value num / den with den > 0 by construction.  Fractions are never
normalised: all operations below are exact integer manipulations, which keeps
every definition kernel-computable. -/

structure Frac where
  num : Int
  den : Nat
deriving DecidableEq

/-- Negation of a fraction. -/
def fneg (a : Frac) : Frac := ⟨-a.num, a.den⟩

/-- Exact product of two fractions. -/
def fmul (a b : Frac) : Frac := ⟨a.num * b.num, a.den * b.den⟩

/-- Test a < 1 for a fraction with positive denominator. -/
def fltOne (a : Frac) : Bool := a.num < (a.den : Int)

/-- Test 2 <= a for a fraction with positive denominator. -/
def fgeTwo (a : Frac) : Bool := 2 * (a.den : Int) ≤ a.num

/-- Exact product a * 2 ^ k for an Int exponent k. -/
def fscalePow2 (a : Frac) (k : Int) : Frac :=
  if 0 ≤ k then ⟨a.num * ((2 ^ k.toNat : Nat) : Int), a.den⟩
  else ⟨a.num, a.den * 2 ^ (-k).toNat⟩

/-- Exact product a * 10 ^ k for an Int exponent k. -/
def fscalePow10 (a : Frac) (k : Int) : Frac :=
  if 0 ≤ k then ⟨a.num * ((10 ^ k.toNat : Nat) : Int), a.den⟩
  else ⟨a.num, a.den * 10 ^ (-k).toNat⟩

/-! ## IEEE-754 double precision, embedded as exactly rounded fractions -/

/-- Number of doublings/halvings allowed while searching for the binary
exponent of a positive fraction.  2200 covers every magnitude the embedded
program can produce (far beyond the double range boundaries). -/
def expFuel : Nat := 2200

/-- Binary exponent search: returns e with 2 ^ e <= q < 2 ^ (e + 1) for a
positive fraction q (provided the fuel suffices, which it does on the whole
double range). -/
def findExp : Nat → Frac → Int → Int
  | 0, _, e => e
  | f + 1, q, e =>
    if fltOne q then findExp f ⟨2 * q.num, q.den⟩ (e - 1)
    else if fgeTwo q then findExp f ⟨q.num, 2 * q.den⟩ (e + 1)
    else e

/-- Round a positive fraction to the nearest double (53 significant bits,
round to nearest, ties to even). -/
def roundPosToDouble (q : Frac) : Frac :=
  let e := findExp expFuel q 0
  let m := fscalePow2 q (52 - e)
  let n : Nat := m.num.toNat / m.den
  -- twice the fractional part of m, times the denominator: comparing it with
  -- the denominator decides between the half-way cases
  let t : Int := 2 * (m.num - (n : Int) * (m.den : Int))
  let r : Nat :=
    if (m.den : Int) < t then n + 1
    else if t < (m.den : Int) then n
    else if n % 2 = 0 then n else n + 1
  fscalePow2 ⟨(r : Int), 1⟩ (e - 52)

/-- Round any fraction to the nearest double value. -/
def roundToDouble (q : Frac) : Frac :=
  if q.num = 0 then ⟨0, 1⟩
  else if q.num < 0 then fneg (roundPosToDouble (fneg q))
  else roundPosToDouble q

/-- Conversion of a Python int to a double (PyLong_AsDouble: nearest). -/
def intToDouble (n : Int) : Frac := roundToDouble ⟨n, 1⟩

/-- Product of two doubles, rounded back to a double (one IEEE multiply). -/
def doubleMul (a b : Frac) : Frac := roundToDouble (fmul a b)

/-- Truncation toward zero of a fraction, the semantics of Python int(x)
applied to a float x. -/
def pyTrunc (q : Frac) : Int :=
  if 0 ≤ q.num then ((q.num.toNat / q.den : Nat) : Int)
  else -(((-q.num).toNat / q.den : Nat) : Int)

/-- Value of the Python float literal 0.30: the double nearest to 3/10. -/
def double030 : Frac := roundToDouble ⟨30, 100⟩

/-- Embedding of the expression int(total_worth * 0.30) from lines 229 and
585 of the source: convert the Python int to a double, multiply by the double
0.30, truncate toward zero. -/
def maxAllowedCode (total : Int) : Int :=
  pyTrunc (doubleMul (intToDouble total) double030)

example : double030 = ⟨5404319552844595, 2 ^ 54⟩ := by decide
example : maxAllowedCode 15000000 = 4500000 := by decide
example : maxAllowedCode 10000000 = 3000000 := by decide
example : maxAllowedCode 8000000000000003 = 2400000000000001 := by decide

/-! ## Numeric parsing (parse_amount, lines 119-147)

The source normalises the string (lower-case, drop every comma and
underscore, strip), peels an optional k/m/b suffix, then parses the remaining
literal with Python int() when it contains no dot and with Python float()
otherwise, finally truncating the product with the multiplier toward zero.
Replacing a single-character pattern by the empty string is exactly a filter
over the characters, and lower-casing is a character map, so the
normalisation is embedded on the character list of the input string. -/

/-- Characters removed by the replace(",", "").replace("_", "") calls. -/
def keepChar (c : Char) : Bool := !(c == ',' || c == '_')

/-- Whitespace recognised by Python str.strip / int / float (ASCII part). -/
def isPySpace (c : Char) : Bool :=
  c == ' ' || c == '\t' || c == '\n' || c == '\r' || c == '\x0b' || c == '\x0c'

/-- Strip leading and trailing whitespace from a character list. -/
def trimWs (l : List Char) : List Char :=
  ((l.dropWhile isPySpace).reverse.dropWhile isPySpace).reverse

/-- Numeric value of a digit string (most significant first). -/
def natOfDigits (l : List Char) : Nat :=
  l.foldl (fun a c => 10 * a + (c.toNat - 48)) 0

/-- Split an optional leading sign off a literal, as Python int() and
float() accept it. -/
def splitSign (l : List Char) : Int × List Char :=
  match l with
  | '-' :: r => (-1, r)
  | '+' :: r => (1, r)
  | _ => (1, l)

/-- Embedding of Python int(str): optional surrounding whitespace, optional
sign, then a non-empty digit string (underscores were already removed). -/
def pyIntOfChars (l : List Char) : Option Int :=
  let l := trimWs l
  let (sgn, d) := splitSign l
  if d ≠ [] ∧ d.all Char.isDigit then some (sgn * (natOfDigits d : Int)) else none

/-- Split a list at the first occurrence of a character, returning the part
before it and, when present, the part after it. -/
def splitFirst (c : Char) : List Char → List Char × Option (List Char)
  | [] => ([], none)
  | x :: xs =>
    if x = c then ([], some xs)
    else
      let (pre, post) := splitFirst c xs
      (x :: pre, post)

/-- Embedding of Python float(str) on the decimal literals that can reach it
here (the branch is only taken when the string contains a dot, which rules
out the inf/nan spellings): optional whitespace and sign, an integer part
and/or a fractional part around an optional dot, and an optional exponent
part.  The exact decimal value is returned as a fraction together with the
correctly rounded double (CPython float parsing is correctly rounded). -/
def pyFloatOfChars (l : List Char) : Option Frac :=
  let l := trimWs l
  let (sgn, l) := splitSign l
  let (mant, expPart) := splitFirst 'e' l
  let expVal : Option Int :=
    match expPart with
    | none => some 0
    | some ex =>
      let (esgn, ed) := splitSign ex
      if ed ≠ [] ∧ ed.all Char.isDigit then some (esgn * (natOfDigits ed : Int)) else none
  match expVal with
  | none => none
  | some ev =>
    let (ip, fpOpt) := splitFirst '.' mant
    let fp := fpOpt.getD []
    if ip.all Char.isDigit ∧ fp.all Char.isDigit ∧ (ip ≠ [] ∨ fp ≠ []) ∧
        ¬ fp.contains '.' then
      some (roundToDouble
        (fscalePow10 ⟨sgn * (natOfDigits (ip ++ fp) : Int), 10 ^ fp.length⟩ ev))
    else none

/-- Embedding of parse_amount (lines 119-147) on the character list of the
input string: lower-case, drop commas and underscores, strip, peel an
optional k/m/b suffix, then parse the rest as int or (if it contains a dot)
float, truncating the float product toward zero.  The result none stands for
the ValueError raised by the source. -/
def parseAmountCore (l0 : List Char) : Option Int :=
  let val := trimWs ((l0.map Char.toLower).filter keepChar)
  let (multiplier, core) :=
    match val.getLast? with
    | some 'm' => ((1000000 : Int), val.dropLast)
    | some 'k' => ((1000 : Int), val.dropLast)
    | some 'b' => ((1000000000 : Int), val.dropLast)
    | _ => ((1 : Int), val)
  if core.contains '.' then
    match pyFloatOfChars core with
    | some q => some (pyTrunc (doubleMul q (intToDouble multiplier)))
    | none => none
  else
    match pyIntOfChars core with
    | some n => some (n * multiplier)
    | none => none

/-- String-level wrapper of parse_amount. -/
def parse_amount (s : String) : Option Int := parseAmountCore s.data

example : parse_amount "1.5m" = some 1500000 := by decide
example : parse_amount "500k" = some 500000 := by decide
example : parse_amount "10,000" = some 10000 := by decide
example : parse_amount "abc" = none := by decide
example : parse_amount "1.5" = some 1 := by decide
example : parse_amount "1,,2" = some 12 := by decide
example : parse_amount "-5m" = some (-5000000) := by decide
example : parse_amount "" = none := by decide
example : parse_amount "k" = none := by decide
example : parse_amount "1b" = some 1000000000 := by decide
example : parse_amount " 2.5e3 k " = some 2500000 := by decide
example : parse_amount "+7" = some 7 := by decide
example : parse_amount "1." = some 1 := by decide
example : parse_amount "." = none := by decide
example : parse_amount ".5m" = some 500000 := by decide
example : parse_amount "1.5e-2m" = some 15000 := by decide
example : parse_amount "0.30b" = some 300000000 := by decide

/-! ## Item cache and fuzzy lookup (lines 78-114) -/

/-- Item from the external catalog (the body entries of the API payload):
name, value and optional attachment URL. -/
structure Item where
  name : String
  value : Int
  attachment : Option String
deriving DecidableEq

/-- Outcome of the GET request issued by fetch_items_from_api: a transport
error, a payload that is not of the expected shape, or a JSON object with a
success flag and an optional body list. -/
inductive ApiResult where
  | netError : ApiResult
  | malformed : ApiResult
  | payload (success : Bool) (body : Option (List Item)) : ApiResult
deriving DecidableEq

/-- Embedding of fetch_items_from_api (lines 78-91): the body list when the
payload has success set and a list body, otherwise the empty list (every
exception is caught and logged). -/
def fetch_items_from_api : ApiResult → List Item
  | .netError => []
  | .malformed => []
  | .payload success body =>
    match success, body with
    | true, some l => l
    | _, _ => []

/-- In-memory item snapshot together with its persisted copy (items.json). -/
structure CacheState where
  cached : List Item
  persisted : List Item
deriving DecidableEq

/-- Embedding of update_items_cache (lines 93-102): replace the snapshot and
persist it when the fetch produced a non-empty list, otherwise keep the
previous snapshot (and the previous file) untouched.  The function is total:
the source catches every exception inside the fetch and the save. -/
def update_items_cache (r : ApiResult) (st : CacheState) : CacheState :=
  let newItems := fetch_items_from_api r
  if newItems ≠ [] then { cached := newItems, persisted := newItems } else st

/-- Modelled from the spec: the external collaborator rapidfuzz
process.extractOne, with the weighted-ratio scorer abstracted as a function
parameter.  Scans the remaining choices keeping the strictly best score seen
so far, so equal scores keep the earlier choice. -/
def extractBest (scores : List ℚ) (bs : ℚ) (bi : Nat) (k : Nat) : ℚ × Nat :=
  match scores with
  | [] => (bs, bi)
  | s :: rest => if bs < s then extractBest rest s k (k + 1) else extractBest rest bs bi (k + 1)

/-- Modelled from the spec: rapidfuzz process.extractOne over a list of
choice strings, returning the best choice, its score and its index (none on
an empty choice list). -/
def extractOne (scorer : String → String → ℚ) (query : String)
    (names : List String) : Option (String × ℚ × Nat) :=
  match names with
  | [] => none
  | c :: cs =>
    let (bs, bi) := extractBest (cs.map (scorer query)) (scorer query c) 0 1
    some (((c :: cs).get? bi).getD "", bs, bi)

/-- Embedding of fuzzy_search_item (lines 107-114): none on an empty item
list, otherwise extract the best-scoring name and return the corresponding
item when the name is truthy (non-empty) and the score reaches the
threshold. -/
def fuzzy_search_item (scorer : String → String → ℚ) (query : String)
    (items : List Item) (threshold : ℚ) : Option Item :=
  match items with
  | [] => none
  | _ =>
    let names := items.map (fun it => it.name)
    match extractOne scorer query names with
    | none => none
    | some (best, score, idx) =>
      if best ≠ "" ∧ threshold ≤ score then items.get? idx else none

/-! ## Creation-time validation (on_submit, lines 213-239) -/

/-- Business-rule violations reported by the creation checks, in source
order: invalid catalog value, total worth below the minimum, starting bid
above the 30 percent limit. -/
inductive Violation where
  | invalidItemValue : Violation
  | belowMinimumWorth : Violation
  | bidOverLimit : Violation
deriving DecidableEq

/-- Embedding of the validation sequence of on_submit (lines 213-239):
reject a non-positive item value, then a total worth below 10,000,000, then
a starting bid exceeding int(total_worth * 0.30); accept otherwise. -/
def validate_creation (value_each quantity starting_bid : Int) : Option Violation :=
  if value_each ≤ 0 then some .invalidItemValue
  else
    let total_worth := value_each * quantity
    if total_worth < 10000000 then some .belowMinimumWorth
    else if starting_bid > maxAllowedCode total_worth then some .bidOverLimit
    else none

/-! ## Tickets and the ticket store -/

/-- Persisted ticket record (lines 284-293 of the source). -/
structure Ticket where
  ticket_id : Nat
  guild_id : Nat
  user_id : Nat
  item_name : String
  attachment : Option String
  value : Int
  quantity : Int
  starting_bid : Int
deriving DecidableEq

/-- Ticket store keyed by channel id, the auction_tickets map. -/
def TicketStore : Type := Nat → Option Ticket

/-- A guild role, reduced to the one capability the cog inspects. -/
structure Role where
  manage_channels : Bool
deriving DecidableEq

/-- The member invoking a command: id and guild roles. -/
structure Caller where
  id : Nat
  roles : List Role
deriving DecidableEq

/-- Authorization check shared by edit_bid, close_auction and
cancel_button: ticket owner, or any role with the manage-channels
capability. -/
def is_authorized (caller : Caller) (t : Ticket) : Bool :=
  (t.user_id == caller.id) || caller.roles.any (fun r => r.manage_channels)

/-! ## Ticket creation (AuctionCreateModal.on_submit, lines 187-331) -/

/-- Rejection reasons of a creation request, in the order the source checks
them. -/
inductive CreateError where
  | invalidAmount : CreateError
  | itemNotFound : CreateError
  | invalidItemValue : CreateError
  | belowMinimumWorth : CreateError
  | bidOverLimit : CreateError
deriving DecidableEq

/-- Map a validation violation to the corresponding creation error. -/
def violationToError : Violation → CreateError
  | .invalidItemValue => .invalidItemValue
  | .belowMinimumWorth => .belowMinimumWorth
  | .bidOverLimit => .bidOverLimit

/-- Result of a creation request: rejected with an error, or a created
ticket. -/
inductive SubmitResult where
  | rejected (e : CreateError) : SubmitResult
  | created (t : Ticket) : SubmitResult
deriving DecidableEq

/-- Outcome of on_submit: the user-visible result, the guild ticket counter
after the call, the ticket store after the call, and the channel created by
the call, if any. -/
structure SubmitOut where
  res : SubmitResult
  counter : Nat
  store : TicketStore
  createdChannel : Option Nat

/-- Embedding of AuctionCreateModal.on_submit (lines 187-331).  Channel
creation is an external platform effect, modelled by the fresh channel id
newChan handed in by the platform; the guild config only enters through its
ticket counter.  Order follows the source: parse the two amounts, resolve
the item, run the validations, and only then increment the counter, create
the channel and persist the record keyed by the new channel id. -/
def on_submit (counter : Nat) (store : TicketStore) (items : List Item)
    (scorer : String → String → ℚ) (guildId userId : Nat) (newChan : Nat)
    (itemQuery quantityText bidText : String) : SubmitOut :=
  match parseAmountCore (trimWs quantityText.data),
      parseAmountCore (trimWs bidText.data) with
  | some quantityVal, some startingBidVal =>
    match fuzzy_search_item scorer itemQuery.trim items 65 with
    | none => ⟨.rejected .itemNotFound, counter, store, none⟩
    | some matchedItem =>
      match validate_creation matchedItem.value quantityVal startingBidVal with
      | some v => ⟨.rejected (violationToError v), counter, store, none⟩
      | none =>
        let currentTicketNum := counter + 1
        let t : Ticket :=
          { ticket_id := currentTicketNum
            guild_id := guildId
            user_id := userId
            item_name := matchedItem.name
            attachment := matchedItem.attachment
            value := matchedItem.value
            quantity := quantityVal
            starting_bid := startingBidVal }
        ⟨.created t, currentTicketNum,
          fun k => if k = newChan then some t else store k, some newChan⟩
  | _, _ => ⟨.rejected .invalidAmount, counter, store, none⟩

/-! ## Bid editing (AuctionCog.edit_bid, lines 558-598) -/

/-- Ratio re-check and update of the record, lines 582-594: none when the
new bid exceeds int(total_worth * 0.30), otherwise the updated record. -/
def edit_bid_check (t : Ticket) (newBidVal : Int) : Option Ticket :=
  if newBidVal > maxAllowedCode (t.value * t.quantity) then none
  else some { t with starting_bid := newBidVal }

/-- User-visible outcome of edit_bid. -/
inductive EditResult where
  | ticketNotFound : EditResult
  | unauthorized : EditResult
  | invalidAmount : EditResult
  | overLimit : EditResult
  | updated : EditResult
deriving DecidableEq

/-- Outcome of edit_bid: result and ticket store after the call. -/
structure EditOut where
  res : EditResult
  store : TicketStore

/-- Embedding of AuctionCog.edit_bid (lines 558-598): ticket lookup by
channel id, authorization, amount parsing, ratio re-check, store update. -/
def edit_bid (store : TicketStore) (chan : Nat) (caller : Caller)
    (newBid : String) : EditOut :=
  match store chan with
  | none => ⟨.ticketNotFound, store⟩
  | some t =>
    if !is_authorized caller t then ⟨.unauthorized, store⟩
    else
      match parseAmountCore (trimWs newBid.data) with
      | none => ⟨.invalidAmount, store⟩
      | some newBidVal =>
        match edit_bid_check t newBidVal with
        | none => ⟨.overLimit, store⟩
        | some t2 => ⟨.updated, fun k => if k = chan then some t2 else store k⟩

/-! ## Closing (AuctionCog.close_auction, lines 600-641) -/

/-- User-visible outcome of close_auction. -/
inductive CloseResult where
  | ticketNotFound : CloseResult
  | unauthorized : CloseResult
  | closed : CloseResult
deriving DecidableEq

/-- Outcome of close_auction: result, store after the call, the deferred
channel deletion scheduled by the call (channel id and delay), and the
channel deleted immediately (always none: closing only schedules). -/
structure CloseOut where
  res : CloseResult
  store : TicketStore
  scheduledDelete : Option (Nat × Nat)
  deletedChannel : Option Nat

/-- Embedding of AuctionCog.close_auction (lines 600-641): ticket lookup,
authorization, then (after the best-effort permission strip and rename,
which are external platform effects) immediate removal of the record and a
deferred deletion of the channel after 3600 time-units. -/
def close_auction (store : TicketStore) (chan : Nat) (caller : Caller) : CloseOut :=
  match store chan with
  | none => ⟨.ticketNotFound, store, none, none⟩
  | some t =>
    if !is_authorized caller t then ⟨.unauthorized, store, none, none⟩
    else ⟨.closed, fun k => if k = chan then none else store k, some (chan, 3600), none⟩

/-! ## Cancelling (AuctionTicketView.cancel_button, lines 373-395) -/

/-- User-visible outcome of cancel_button. -/
inductive CancelResult where
  | notRecognized : CancelResult
  | unauthorized : CancelResult
  | cancelled : CancelResult
deriving DecidableEq

/-- Outcome of cancel_button: result, store after the call, and the channel
deleted immediately, if any. -/
structure CancelOut where
  res : CancelResult
  store : TicketStore
  deletedChannel : Option Nat

/-- Embedding of AuctionTicketView.cancel_button (lines 373-395): ticket
lookup, authorization, then immediate removal of the record and immediate
deletion of the channel (no rename, no delay). -/
def cancel_button (store : TicketStore) (chan : Nat) (caller : Caller) : CancelOut :=
  match store chan with
  | none => ⟨.notRecognized, store, none⟩
  | some t =>
    if !is_authorized caller t then ⟨.unauthorized, store, none⟩
    else ⟨.cancelled, fun k => if k = chan then none else store k, some chan⟩

/-! ## Helper lemmas -/

/-- Acceptance by the creation validator forces the bid to be at most the
computed 30 percent bound. -/
lemma validate_creation_none_bid_le (v q b : Int)
    (h : validate_creation v q b = none) : b ≤ maxAllowedCode (v * q) := by
  unfold validate_creation at h
  by_cases h1 : v ≤ 0
  · simp [h1] at h
  · by_cases h2 : v * q < 10000000
    · simp [h1, h2] at h
    · by_cases h3 : b > maxAllowedCode (v * q)
      · simp [h1, h2, h3] at h
      · exact not_lt.mp h3

/-- Case analysis of edit_bid: missing ticket, unauthorized caller, parse
failure and failed ratio re-check leave the store untouched; a successful
edit rewrites exactly the record stored under the channel id. -/
lemma edit_bid_cases (store : TicketStore) (chan : Nat) (caller : Caller)
    (nb : String) :
    (store chan = none ∧ edit_bid store chan caller nb = ⟨.ticketNotFound, store⟩) ∨
    (∃ t, store chan = some t ∧
      ((is_authorized caller t = false ∧
          edit_bid store chan caller nb = ⟨.unauthorized, store⟩) ∨
       (is_authorized caller t = true ∧
        ((parseAmountCore (trimWs nb.data) = none ∧
            edit_bid store chan caller nb = ⟨.invalidAmount, store⟩) ∨
         (∃ bv, parseAmountCore (trimWs nb.data) = some bv ∧
          ((edit_bid_check t bv = none ∧
              edit_bid store chan caller nb = ⟨.overLimit, store⟩) ∨
           (∃ t2, edit_bid_check t bv = some t2 ∧
             edit_bid store chan caller nb =
               ⟨.updated, fun k => if k = chan then some t2 else store k⟩))))))) := by
  unfold edit_bid
  split
  · rename_i hs
    exact Or.inl ⟨hs, rfl⟩
  · rename_i t hs
    right
    refine ⟨t, hs, ?_⟩
    split
    · rename_i hauth
      exact Or.inl ⟨by simpa using hauth, rfl⟩
    · rename_i hauth
      right
      refine ⟨by simpa using hauth, ?_⟩
      split
      · rename_i hp
        exact Or.inl ⟨hp, rfl⟩
      · rename_i bv hp
        right
        refine ⟨bv, hp, ?_⟩
        split
        · rename_i hc
          exact Or.inl ⟨hc, rfl⟩
        · rename_i t2 hc
          exact Or.inr ⟨t2, hc, rfl⟩

/-- Case analysis of on_submit: either a rejection that returns the counter,
store and channels untouched, or a creation that increments the counter,
creates one channel and persists exactly the new record under the new
channel id. -/
lemma on_submit_cases (counter : Nat) (store : TicketStore) (items : List Item)
    (scorer : String → String → ℚ) (gid uid chan : Nat) (iq qt bt : String) :
    (∃ e, on_submit counter store items scorer gid uid chan iq qt bt =
        ⟨.rejected e, counter, store, none⟩) ∨
    (∃ t, on_submit counter store items scorer gid uid chan iq qt bt =
        ⟨.created t, counter + 1, fun k => if k = chan then some t else store k,
          some chan⟩ ∧
      t.ticket_id = counter + 1 ∧
      validate_creation t.value t.quantity t.starting_bid = none) := by
  unfold on_submit
  split
  · split
    · exact Or.inl ⟨.itemNotFound, rfl⟩
    · split
      · exact Or.inl ⟨violationToError _, rfl⟩
      · rename_i it hval
        exact Or.inr ⟨_, rfl, rfl, hval⟩
  · exact Or.inl ⟨.invalidAmount, rfl⟩

/-! ## Claim C1 -/

/-- C1, counterexample.  The claim states that the maximum allowed bid is
floor(total * 0.30) computed with exact integer truncation and that a bid of
floor + 1 is always rejected.  At value_each = 8000000000000003 and
quantity = 1 the exact floor of total * 3 / 10 is 2400000000000000, yet the
creation validator accepts the bid 2400000000000001, because
int(total_worth * 0.30) is computed in double precision and rounds up
across the integer boundary. -/
theorem c1_floor_boundary_cex :
    (3 * 8000000000000003) / 10 + 1 = (2400000000000001 : Int) ∧
    (0 : Int) < 8000000000000003 ∧ (0 : Int) < 1 ∧
    validate_creation 8000000000000003 1 2400000000000001 = none := by
  refine ⟨by decide, by decide, by decide, by decide⟩

/-- C1, amended: for every creation request and every bid edit with
value_each > 0, quantity > 0 and total worth at least the 10,000,000
minimum, the maximum allowed starting bid is max_allowed =
int(total * 0.30) computed in IEEE double precision (conversion of the
total to the nearest double, multiplication by the double 0.30, truncation
toward zero); a bid exactly equal to this computed value is accepted and a
bid of this computed value plus one is rejected.  The computed value agrees
with floor(total * 3 / 10) on small totals but not universally (see the
counterexample). -/
theorem c1_max_allowed_boundary (value_each quantity : Int)
    (hv : 0 < value_each) (hq : 0 < quantity)
    (hw : 10000000 ≤ value_each * quantity) :
    (validate_creation value_each quantity
        (maxAllowedCode (value_each * quantity)) = none ∧
      validate_creation value_each quantity
        (maxAllowedCode (value_each * quantity) + 1) = some .bidOverLimit) ∧
    ∀ t : Ticket, t.value = value_each → t.quantity = quantity →
      (edit_bid_check t (maxAllowedCode (value_each * quantity)) =
          some { t with starting_bid := maxAllowedCode (value_each * quantity) } ∧
        edit_bid_check t (maxAllowedCode (value_each * quantity) + 1) = none) := by
  have h1 : ¬ value_each ≤ 0 := not_le.mpr hv
  have h2 : ¬ value_each * quantity < 10000000 := not_lt.mpr hw
  refine ⟨⟨?_, ?_⟩, ?_⟩
  · unfold validate_creation
    simp [h1, h2]
  · unfold validate_creation
    simp [h1, h2, Int.lt_add_one_iff]
  · intro t hv' hq'
    unfold edit_bid_check
    rw [hv', hq']
    constructor
    · simp
    · simp [Int.lt_add_one_iff]

/-- C1 witness: the boundary behaviour at the spec scenario (value_each
5,000,000, quantity 3, total 15,000,000, computed bound 4,500,000). -/
theorem c1_max_allowed_boundary_witness :
    (0 : Int) < 5000000 ∧ (0 : Int) < 3 ∧ (10000000 : Int) ≤ 5000000 * 3 ∧
    validate_creation 5000000 3 (maxAllowedCode (5000000 * 3)) = none ∧
    validate_creation 5000000 3 (maxAllowedCode (5000000 * 3) + 1) =
      some .bidOverLimit :=
  ⟨by decide, by decide, by decide,
    (c1_max_allowed_boundary 5000000 3 (by decide) (by decide) (by decide)).1.1,
    (c1_max_allowed_boundary 5000000 3 (by decide) (by decide) (by decide)).1.2⟩

/-! ## Claim C2 -/

/-- C2: for all value_each > 0 and quantity > 0, a creation request is
rejected with the below-minimum-worth violation if and only if
value_each * quantity < 10,000,000; when the product reaches 10,000,000 the
minimum-worth check passes (any later rejection is a different
violation). -/
theorem c2_below_minimum_worth (value_each quantity starting_bid : Int)
    (hv : 0 < value_each) (hq : 0 < quantity) :
    validate_creation value_each quantity starting_bid =
        some .belowMinimumWorth ↔
      value_each * quantity < 10000000 := by
  have h1 : ¬ value_each ≤ 0 := not_le.mpr hv
  unfold validate_creation
  by_cases h2 : value_each * quantity < 10000000
  · simp [h1, h2]
  · by_cases h3 : starting_bid > maxAllowedCode (value_each * quantity) <;>
      simp [h1, h2, h3]

/-- C2 witness: value_each 5,000,000 and quantity 1 give total 5,000,000,
below the minimum, and the validator reports exactly that violation. -/
theorem c2_below_minimum_worth_witness :
    (0 : Int) < 5000000 ∧ (0 : Int) < 1 ∧
    validate_creation 5000000 1 0 = some .belowMinimumWorth :=
  ⟨by decide, by decide,
    (c2_below_minimum_worth 5000000 1 0 (by decide) (by decide)).mpr (by decide)⟩

/-! ## Claim C8 -/

/-- C8: the amount parser maps "1.5m" to 1,500,000, "500k" to 500,000,
"10,000" to 10,000, fails on "abc", and accepts a suffix-free decimal
literal with the float product truncated toward zero, so "1.5" parses
to 1. -/
theorem c8_parse_amount_examples :
    parse_amount "1.5m" = some 1500000 ∧
    parse_amount "500k" = some 500000 ∧
    parse_amount "10,000" = some 10000 ∧
    parse_amount "abc" = none ∧
    parse_amount "1.5" = some 1 := by
  refine ⟨by decide, by decide, by decide, by decide, by decide⟩

/-! ## Claim C10 -/

/-- Removing commas and underscores first and lower-casing afterwards is the
same as lower-casing first: the two dropped characters are fixed by
lower-casing and are never produced by it. -/
lemma keepChar_toLower_and (c : Char) :
    (keepChar (Char.toLower c) && keepChar c) = keepChar (Char.toLower c) := by
  by_cases h1 : c = ','
  · subst h1; decide
  · by_cases h2 : c = '_'
    · subst h2; decide
    · have hk : keepChar c = true := by simp [keepChar, h1, h2]
      rw [hk, Bool.and_true]

/-- The characters surviving the separator filter are the same before and
after lower-casing. -/
lemma filter_keep_map_toLower (l : List Char) :
    ((l.filter keepChar).map Char.toLower).filter keepChar =
      (l.map Char.toLower).filter keepChar := by
  rw [List.filter_map, List.filter_map, List.filter_filter]
  exact congrArg (List.map Char.toLower)
    (List.filter_congr (fun a _ => by simpa using keepChar_toLower_and a))

/-- C10: the parser removes every comma and underscore wherever they occur
(filtering the separators out of the input never changes the result, so for
example "1,,2" parses to 12), accepts negative literals such as "-5m"
yielding a negative integer, and fails on the empty string and on a bare
suffix such as "k". -/
theorem c10_separator_stripping :
    parse_amount "1,,2" = some 12 ∧
    parse_amount "-5m" = some (-5000000) ∧
    parse_amount "" = none ∧
    parse_amount "k" = none ∧
    ∀ l : List Char, parseAmountCore (l.filter keepChar) = parseAmountCore l := by
  refine ⟨by decide, by decide, by decide, by decide, ?_⟩
  intro l
  unfold parseAmountCore
  rw [filter_keep_map_toLower]

/-! ## Claim C3 -/

/-- A ticket record respects the bid bound actually enforced by the source:
starting_bid at most int(value * quantity * 0.30) computed in double
precision. -/
def ticket_ok (t : Ticket) : Prop :=
  t.starting_bid ≤ maxAllowedCode (t.value * t.quantity)

/-- Every record of a store respects the enforced bid bound. -/
def store_ok (store : TicketStore) : Prop :=
  ∀ k t, store k = some t → ticket_ok t

/-- A successful ratio re-check during a bid edit produces a record within
the enforced bound. -/
lemma edit_bid_check_some_ok (t : Ticket) (bv : Int) (t2 : Ticket)
    (h : edit_bid_check t bv = some t2) : ticket_ok t2 := by
  unfold edit_bid_check at h
  by_cases h3 : bv > maxAllowedCode (t.value * t.quantity)
  · simp [h3] at h
  · rw [if_neg h3] at h
    cases h
    simpa [ticket_ok] using not_lt.mp h3

/-- C3, counterexample.  The claim states that every stored record satisfies
0 <= starting_bid and that the lower bound is enforced at creation.  The
source never checks the sign of a bid: a creation request with bid "-1" for
three 5,000,000-value items is accepted and the persisted record carries
starting_bid = -1 < 0. -/
theorem c3_lower_bound_cex :
    (on_submit 0 (fun _ => none) [⟨"Blue Gem", 5000000, none⟩]
        (fun _ _ => (100 : ℚ)) 10 20 7 "Blue Gem" "3" "-1").store 7 =
      some ⟨1, 10, 20, "Blue Gem", none, 5000000, 3, -1⟩ ∧
    (-1 : Int) < 0 := by
  refine ⟨by decide, by decide⟩

/-- C3, amended: every ticket record in the store satisfies
starting_bid <= int(0.30 * item_value_each * quantity) (the double-precision
bound the source computes), and this upper bound is enforced both at ticket
creation and at every bid edit; the lower bound 0 <= starting_bid is not
enforced anywhere (see the counterexample). -/
theorem c3_bid_bound_invariant (counter : Nat) (store : TicketStore)
    (items : List Item) (scorer : String → String → ℚ) (gid uid chan : Nat)
    (iq qt bt : String) (store2 : TicketStore) (chan2 : Nat) (caller : Caller)
    (nb : String) (h1 : store_ok store) (h2 : store_ok store2) :
    store_ok (on_submit counter store items scorer gid uid chan iq qt bt).store ∧
    store_ok (edit_bid store2 chan2 caller nb).store := by
  constructor
  · rcases on_submit_cases counter store items scorer gid uid chan iq qt bt with
      ⟨e, h⟩ | ⟨t, h, _, hval⟩
    · rw [h]; exact h1
    · rw [h]
      intro k t2 hk
      by_cases hkc : k = chan
      · simp only [hkc, if_pos rfl] at hk
        cases hk
        have hb := validate_creation_none_bid_le _ _ _ hval
        exact hb
      · simp only [if_neg hkc] at hk
        exact h1 k t2 hk
  · rcases edit_bid_cases store2 chan2 caller nb with ⟨_, h⟩ | ⟨t, _, hrest⟩
    · rw [h]; exact h2
    · rcases hrest with ⟨_, h⟩ | ⟨_, hrest2⟩
      · rw [h]; exact h2
      · rcases hrest2 with ⟨_, h⟩ | ⟨bv, _, hrest3⟩
        · rw [h]; exact h2
        · rcases hrest3 with ⟨_, h⟩ | ⟨t2, hc, h⟩
          · rw [h]; exact h2
          · rw [h]
            intro k t3 hk
            by_cases hkc : k = chan2
            · subst hkc
              simp only [if_pos rfl] at hk
              cases hk
              exact edit_bid_check_some_ok t bv t2 hc
            · simp only [if_neg hkc] at hk
              exact h2 k t3 hk

/-- C3 witness: the amended invariant evaluated on an accepting creation
request over the empty store and on a successful bid edit. -/
theorem c3_bid_bound_invariant_witness :
    store_ok (on_submit 0 (fun _ => none) [⟨"Blue Gem", 5000000, none⟩]
      (fun _ _ => (100 : ℚ)) 10 20 7 "Blue Gem" "3" "4000000").store ∧
    store_ok (edit_bid
      (fun k => if k = 5 then some ⟨1, 10, 20, "Blue Gem", none, 5000000, 3, 4000000⟩
        else none) 5 ⟨20, []⟩ "4500000").store :=
  ⟨(c3_bid_bound_invariant 0 (fun _ => none) [⟨"Blue Gem", 5000000, none⟩]
      (fun _ _ => (100 : ℚ)) 10 20 7 "Blue Gem" "3" "4000000"
      (fun _ => none) 5 ⟨20, []⟩ "4500000"
      (fun _ _ h => Option.noConfusion h) (fun _ _ h => Option.noConfusion h)).1,
   (c3_bid_bound_invariant 0 (fun _ => none) [⟨"Blue Gem", 5000000, none⟩]
      (fun _ _ => (100 : ℚ)) 10 20 7 "Blue Gem" "3" "4000000"
      (fun k => if k = 5 then some ⟨1, 10, 20, "Blue Gem", none, 5000000, 3, 4000000⟩
        else none) 5 ⟨20, []⟩ "4500000"
      (fun _ _ h => Option.noConfusion h)
      (fun k t h => by
        by_cases hk : k = 5
        · subst hk
          simp only [if_pos rfl] at h
          cases h
          show (4000000 : Int) ≤ maxAllowedCode (5000000 * 3)
          decide
        · simp only [if_neg hk] at h
          exact Option.noConfusion h)).2⟩

/-! ## Claim C4 -/

/-- C4: every rejected creation request (amount parse failure, unresolved
item, invalid item value, below minimum worth, or bid over the limit) leaves
the guild ticket counter and the ticket store untouched and creates no
channel; every accepted creation creates exactly one channel, persists
exactly one record under the new channel id, and numbers it with the prior
counter plus one. -/
theorem c4_creation_atomicity (counter : Nat) (store : TicketStore)
    (items : List Item) (scorer : String → String → ℚ) (gid uid chan : Nat)
    (iq qt bt : String) :
    (∀ e, (on_submit counter store items scorer gid uid chan iq qt bt).res =
        .rejected e →
      (on_submit counter store items scorer gid uid chan iq qt bt).counter =
          counter ∧
      (on_submit counter store items scorer gid uid chan iq qt bt).store =
          store ∧
      (on_submit counter store items scorer gid uid chan iq qt bt).createdChannel =
          none) ∧
    (∀ t, (on_submit counter store items scorer gid uid chan iq qt bt).res =
        .created t →
      (on_submit counter store items scorer gid uid chan iq qt bt).counter =
          counter + 1 ∧
      t.ticket_id = counter + 1 ∧
      (on_submit counter store items scorer gid uid chan iq qt bt).createdChannel =
          some chan ∧
      (on_submit counter store items scorer gid uid chan iq qt bt).store chan =
          some t ∧
      ∀ k, k ≠ chan →
        (on_submit counter store items scorer gid uid chan iq qt bt).store k =
          store k) := by
  rcases on_submit_cases counter store items scorer gid uid chan iq qt bt with
    ⟨e, h⟩ | ⟨t, h, hid, _⟩
  · constructor
    · intro e2 he2
      rw [h]
      exact ⟨rfl, rfl, rfl⟩
    · intro t ht
      rw [h] at ht
      exact SubmitResult.noConfusion ht
  · constructor
    · intro e2 he2
      rw [h] at he2
      exact SubmitResult.noConfusion he2
    · intro t2 ht2
      rw [h] at ht2 ⊢
      have ht : t2 = t := (SubmitResult.created.inj ht2).symm
      subst ht
      refine ⟨rfl, hid, rfl, by simp, ?_⟩
      intro k hk
      simp [hk]

/-- C4 witness: a rejected request ("abc" fails to parse) leaves the counter
at 0 with no channel, and the spec scenario (Blue Gem, quantity 3, bid
4,000,000) creates ticket number 1 from counter 0. -/
theorem c4_creation_atomicity_witness :
    (on_submit 0 (fun _ => none) [] (fun _ _ => (0 : ℚ)) 1 2 3
        "x" "abc" "1").counter = 0 ∧
    (on_submit 0 (fun _ => none) [] (fun _ _ => (0 : ℚ)) 1 2 3
        "x" "abc" "1").createdChannel = none ∧
    (on_submit 0 (fun _ => none) [⟨"Blue Gem", 5000000, none⟩]
        (fun _ _ => (100 : ℚ)) 1 2 3 "Blue Gem" "3" "4000000").counter = 1 ∧
    (⟨1, 1, 2, "Blue Gem", none, 5000000, 3, 4000000⟩ : Ticket).ticket_id = 0 + 1 :=
  ⟨((c4_creation_atomicity 0 (fun _ => none) [] (fun _ _ => (0 : ℚ)) 1 2 3
      "x" "abc" "1").1 .invalidAmount (by decide)).1,
   ((c4_creation_atomicity 0 (fun _ => none) [] (fun _ _ => (0 : ℚ)) 1 2 3
      "x" "abc" "1").1 .invalidAmount (by decide)).2.2,
   ((c4_creation_atomicity 0 (fun _ => none) [⟨"Blue Gem", 5000000, none⟩]
      (fun _ _ => (100 : ℚ)) 1 2 3 "Blue Gem" "3" "4000000").2
      ⟨1, 1, 2, "Blue Gem", none, 5000000, 3, 4000000⟩ (by decide)).1,
   ((c4_creation_atomicity 0 (fun _ => none) [⟨"Blue Gem", 5000000, none⟩]
      (fun _ _ => (100 : ℚ)) 1 2 3 "Blue Gem" "3" "4000000").2
      ⟨1, 1, 2, "Blue Gem", none, 5000000, 3, 4000000⟩ (by decide)).2.1⟩

/-! ## Claim C5 -/

/-- C5: a failed cache refresh (network error, malformed payload, or empty
item list, all of which make the fetch return the empty list) leaves the
in-memory snapshot and its persisted copy exactly as they were, so every
find query returns the same result before and after the call; a successful
refresh replaces the snapshot wholesale and persists it.  The embedded
update function is total: the source catches every exception, so refresh
never raises to its caller. -/
theorem c5_refresh_failure_preserves_cache (r : ApiResult) (st : CacheState) :
    (fetch_items_from_api r = [] →
      update_items_cache r st = st ∧
      ∀ scorer query θ,
        fuzzy_search_item scorer query (update_items_cache r st).cached θ =
          fuzzy_search_item scorer query st.cached θ) ∧
    (fetch_items_from_api r ≠ [] →
      (update_items_cache r st).cached = fetch_items_from_api r ∧
      (update_items_cache r st).persisted = fetch_items_from_api r) := by
  constructor
  · intro h
    have h2 : update_items_cache r st = st := by
      unfold update_items_cache
      simp [h]
    exact ⟨h2, fun scorer query θ => by rw [h2]⟩
  · intro h
    unfold update_items_cache
    simp [h]

/-- C5 witness: a network error leaves a one-item cache untouched, and a
successful payload replaces and persists the snapshot. -/
theorem c5_refresh_witness :
    update_items_cache .netError ⟨[⟨"Blue Gem", 5000000, none⟩], []⟩ =
      ⟨[⟨"Blue Gem", 5000000, none⟩], []⟩ ∧
    (update_items_cache (.payload true (some [⟨"Pepe", 1, none⟩])) ⟨[], []⟩).cached =
      fetch_items_from_api (.payload true (some [⟨"Pepe", 1, none⟩])) ∧
    (update_items_cache (.payload true (some [⟨"Pepe", 1, none⟩])) ⟨[], []⟩).persisted =
      fetch_items_from_api (.payload true (some [⟨"Pepe", 1, none⟩])) :=
  ⟨((c5_refresh_failure_preserves_cache .netError
      ⟨[⟨"Blue Gem", 5000000, none⟩], []⟩).1 (by decide)).1,
   ((c5_refresh_failure_preserves_cache (.payload true (some [⟨"Pepe", 1, none⟩]))
      ⟨[], []⟩).2 (by decide)).1,
   ((c5_refresh_failure_preserves_cache (.payload true (some [⟨"Pepe", 1, none⟩]))
      ⟨[], []⟩).2 (by decide)).2⟩

/-! ## Claims C6 and C7 -/

/-- Case analysis of close_auction: missing ticket and unauthorized caller
leave everything untouched; an authorized close removes exactly the record
under the channel id and schedules the deferred deletion. -/
lemma close_auction_cases (store : TicketStore) (chan : Nat) (caller : Caller) :
    (store chan = none ∧
      close_auction store chan caller = ⟨.ticketNotFound, store, none, none⟩) ∨
    (∃ t, store chan = some t ∧
      ((is_authorized caller t = false ∧
          close_auction store chan caller = ⟨.unauthorized, store, none, none⟩) ∨
       (is_authorized caller t = true ∧
          close_auction store chan caller =
            ⟨.closed, fun k => if k = chan then none else store k,
              some (chan, 3600), none⟩))) := by
  unfold close_auction
  split
  · rename_i hs
    exact Or.inl ⟨hs, rfl⟩
  · rename_i t hs
    right
    refine ⟨t, hs, ?_⟩
    split
    · rename_i h
      exact Or.inl ⟨by simpa using h, rfl⟩
    · rename_i h
      exact Or.inr ⟨by simpa using h, rfl⟩

/-- Case analysis of cancel_button: missing ticket and unauthorized caller
leave everything untouched; an authorized cancel removes exactly the record
under the channel id and deletes the channel immediately. -/
lemma cancel_button_cases (store : TicketStore) (chan : Nat) (caller : Caller) :
    (store chan = none ∧
      cancel_button store chan caller = ⟨.notRecognized, store, none⟩) ∨
    (∃ t, store chan = some t ∧
      ((is_authorized caller t = false ∧
          cancel_button store chan caller = ⟨.unauthorized, store, none⟩) ∨
       (is_authorized caller t = true ∧
          cancel_button store chan caller =
            ⟨.cancelled, fun k => if k = chan then none else store k,
              some chan⟩))) := by
  unfold cancel_button
  split
  · rename_i hs
    exact Or.inl ⟨hs, rfl⟩
  · rename_i t hs
    right
    refine ⟨t, hs, ?_⟩
    split
    · rename_i h
      exact Or.inl ⟨by simpa using h, rfl⟩
    · rename_i h
      exact Or.inr ⟨by simpa using h, rfl⟩

/-- C6: an authorized close removes the ticket record from the store
immediately, so a subsequent edit-bid on the same channel fails with
ticket-not-found (and changes nothing), while the channel resource itself is
not deleted by the close: its deletion is only scheduled, after a fixed
delay of 3600 time-units. -/
theorem c6_close_removes_record_immediately (store : TicketStore) (chan : Nat)
    (caller : Caller) (t : Ticket) (hs : store chan = some t)
    (ha : is_authorized caller t = true) :
    (close_auction store chan caller).res = .closed ∧
    (close_auction store chan caller).store chan = none ∧
    (close_auction store chan caller).scheduledDelete = some (chan, 3600) ∧
    (close_auction store chan caller).deletedChannel = none ∧
    ∀ caller2 nb,
      (edit_bid (close_auction store chan caller).store chan caller2 nb).res =
        .ticketNotFound ∧
      (edit_bid (close_auction store chan caller).store chan caller2 nb).store =
        (close_auction store chan caller).store := by
  rcases close_auction_cases store chan caller with ⟨h0, _⟩ | ⟨t2, hs2, hbr⟩
  · rw [hs] at h0
    exact Option.noConfusion h0
  · have ht : t2 = t := by
      rw [hs] at hs2
      exact (Option.some.inj hs2).symm
    subst ht
    rcases hbr with ⟨hf, _⟩ | ⟨_, hcl⟩
    · rw [ha] at hf
      exact Bool.noConfusion hf
    · rw [hcl]
      refine ⟨rfl, by simp, rfl, rfl, ?_⟩
      intro caller2 nb
      rcases edit_bid_cases (fun k => if k = chan then none else store k)
          chan caller2 nb with ⟨_, he⟩ | ⟨t3, hs3, _⟩
      · exact ⟨by rw [he], by rw [he]⟩
      · simp only [if_pos rfl] at hs3
        exact Option.noConfusion hs3

/-- C6 witness: closing a concrete one-ticket store as the owner, then
trying to edit the bid in the closed channel. -/
theorem c6_close_witness :
    (close_auction
        (fun k => if k = 5 then some ⟨1, 1, 2, "Blue Gem", none, 5000000, 3, 4000000⟩
          else none) 5 ⟨2, []⟩).res = .closed ∧
    (close_auction
        (fun k => if k = 5 then some ⟨1, 1, 2, "Blue Gem", none, 5000000, 3, 4000000⟩
          else none) 5 ⟨2, []⟩).scheduledDelete = some (5, 3600) ∧
    (edit_bid (close_auction
        (fun k => if k = 5 then some ⟨1, 1, 2, "Blue Gem", none, 5000000, 3, 4000000⟩
          else none) 5 ⟨2, []⟩).store 5 ⟨9, []⟩ "1").res = .ticketNotFound :=
  ⟨(c6_close_removes_record_immediately _ 5 ⟨2, []⟩
      ⟨1, 1, 2, "Blue Gem", none, 5000000, 3, 4000000⟩ (by decide) (by decide)).1,
   (c6_close_removes_record_immediately _ 5 ⟨2, []⟩
      ⟨1, 1, 2, "Blue Gem", none, 5000000, 3, 4000000⟩ (by decide) (by decide)).2.2.1,
   ((c6_close_removes_record_immediately _ 5 ⟨2, []⟩
      ⟨1, 1, 2, "Blue Gem", none, 5000000, 3, 4000000⟩ (by decide) (by decide)).2.2.2.2
      ⟨9, []⟩ "1").1⟩

/-- C7: on an existing ticket, each of edit-bid, close and cancel is
rejected as unauthorized exactly when the caller is neither the ticket
owner nor the holder of a manage-channels role; an authorized close or
cancel goes through, and an unauthorized call of any of the three leaves
the ticket store unchanged. -/
theorem c7_authorization_gate (store : TicketStore) (chan : Nat)
    (caller : Caller) (t : Ticket) (nb : String) (hs : store chan = some t) :
    ((edit_bid store chan caller nb).res = .unauthorized ↔
      is_authorized caller t = false) ∧
    ((close_auction store chan caller).res = .unauthorized ↔
      is_authorized caller t = false) ∧
    ((cancel_button store chan caller).res = .unauthorized ↔
      is_authorized caller t = false) ∧
    (is_authorized caller t = true →
      (close_auction store chan caller).res = .closed ∧
      (cancel_button store chan caller).res = .cancelled) ∧
    (is_authorized caller t = false →
      (edit_bid store chan caller nb).store = store ∧
      (close_auction store chan caller).store = store ∧
      (cancel_button store chan caller).store = store) := by
  rcases close_auction_cases store chan caller with ⟨h0, _⟩ | ⟨tc, hsc, hbrc⟩
  · rw [hs] at h0
    exact Option.noConfusion h0
  have htc : tc = t := by
    rw [hs] at hsc
    exact (Option.some.inj hsc).symm
  rw [htc] at hbrc
  rcases cancel_button_cases store chan caller with ⟨h0, _⟩ | ⟨tn, hsn, hbrn⟩
  · rw [hs] at h0
    exact Option.noConfusion h0
  have htn : tn = t := by
    rw [hs] at hsn
    exact (Option.some.inj hsn).symm
  rw [htn] at hbrn
  rcases edit_bid_cases store chan caller nb with ⟨h0, _⟩ | ⟨te, hse, hbre⟩
  · rw [hs] at h0
    exact Option.noConfusion h0
  have hte : te = t := by
    rw [hs] at hse
    exact (Option.some.inj hse).symm
  rw [hte] at hbre
  by_cases ha : is_authorized caller t = true
  · have hcl := hbrc.resolve_left (fun ⟨hf, _⟩ => by rw [ha] at hf; exact Bool.noConfusion hf)
    have hcn := hbrn.resolve_left (fun ⟨hf, _⟩ => by rw [ha] at hf; exact Bool.noConfusion hf)
    have hed := hbre.resolve_left (fun ⟨hf, _⟩ => by rw [ha] at hf; exact Bool.noConfusion hf)
    refine ⟨?_, by rw [hcl.2]; simp [ha], by rw [hcn.2]; simp [ha],
      fun _ => ⟨by rw [hcl.2], by rw [hcn.2]⟩,
      fun hfalse => by rw [ha] at hfalse; exact Bool.noConfusion hfalse⟩
    rcases hed.2 with ⟨_, he⟩ | ⟨bv, _, hrest⟩
    · rw [he]; simp [ha]
    · rcases hrest with ⟨_, he⟩ | ⟨t2, _, he⟩ <;> (rw [he]; simp [ha])
  · have haf : is_authorized caller t = false := by
      cases h : is_authorized caller t
      · rfl
      · exact absurd h ha
    have hcl := hbrc.resolve_right (fun ⟨hf, _⟩ => by rw [haf] at hf; exact Bool.noConfusion hf)
    have hcn := hbrn.resolve_right (fun ⟨hf, _⟩ => by rw [haf] at hf; exact Bool.noConfusion hf)
    have hed := hbre.resolve_right (fun ⟨hf, _⟩ => by rw [haf] at hf; exact Bool.noConfusion hf)
    refine ⟨by rw [hed.2]; simp [haf], by rw [hcl.2]; simp [haf],
      by rw [hcn.2]; simp [haf],
      fun htrue => by rw [haf] at htrue; exact Bool.noConfusion htrue,
      fun _ => ⟨by rw [hed.2], by rw [hcl.2], by rw [hcn.2]⟩⟩

/-- C7 witness: a stranger without a manage-channels role is rejected by
edit-bid on a concrete one-ticket store and the store survives unchanged. -/
theorem c7_authorization_witness :
    (edit_bid
        (fun k => if k = 5 then some ⟨1, 1, 2, "Blue Gem", none, 5000000, 3, 4000000⟩
          else none) 5 ⟨9, [⟨false⟩]⟩ "1").res = .unauthorized ∧
    (close_auction
        (fun k => if k = 5 then some ⟨1, 1, 2, "Blue Gem", none, 5000000, 3, 4000000⟩
          else none) 5 ⟨9, [⟨false⟩]⟩).store =
      (fun k => if k = 5 then some ⟨1, 1, 2, "Blue Gem", none, 5000000, 3, 4000000⟩
        else none) ∧
    (cancel_button
        (fun k => if k = 5 then some ⟨1, 1, 2, "Blue Gem", none, 5000000, 3, 4000000⟩
          else none) 5 ⟨2, []⟩).res = .cancelled :=
  ⟨((c7_authorization_gate _ 5 ⟨9, [⟨false⟩]⟩
      ⟨1, 1, 2, "Blue Gem", none, 5000000, 3, 4000000⟩ "1" (by decide)).1).mpr
      (by decide),
   (((c7_authorization_gate _ 5 ⟨9, [⟨false⟩]⟩
      ⟨1, 1, 2, "Blue Gem", none, 5000000, 3, 4000000⟩ "1" (by decide)).2.2.2.2
      (by decide)).2.1),
   (((c7_authorization_gate _ 5 ⟨2, []⟩
      ⟨1, 1, 2, "Blue Gem", none, 5000000, 3, 4000000⟩ "1" (by decide)).2.2.2.1
      (by decide)).2)⟩

/-! ## Claim C9 -/

/-- A scan that only replaces the incumbent on a strictly larger score keeps
the incumbent when nothing beats it. -/
lemma extractBest_of_le : ∀ (l : List ℚ) (bs : ℚ) (bi k : Nat),
    (∀ x ∈ l, x ≤ bs) → extractBest l bs bi k = (bs, bi)
  | [], _, _, _, _ => rfl
  | s :: rest, bs, bi, k, h => by
    have hs : ¬ bs < s := not_lt.mpr (h s (List.mem_cons_self s rest))
    simp only [extractBest]
    rw [if_neg hs]
    exact extractBest_of_le rest bs bi (k + 1)
      (fun x hx => h x (List.mem_cons_of_mem s hx))

/-- When some element beats the incumbent, the scan returns the first
maximal element and its position (offset by the running index k). -/
lemma extractBest_first : ∀ (l : List ℚ) (bs : ℚ) (bi k j : Nat)
    (hj : j < l.length),
    (∀ m (hm : m < l.length), l[m] ≤ l[j]) →
    bs < l[j] →
    (∀ m (hm : m < l.length), m < j → l[m] < l[j]) →
    extractBest l bs bi k = (l[j], k + j)
  | [], _, _, _, j, hj, _, _, _ => absurd hj (Nat.not_lt_zero j)
  | s :: rest, bs, bi, k, 0, hj, hmax, hgt, _ => by
    have hgt0 : bs < s := hgt
    simp only [extractBest]
    rw [if_pos hgt0]
    rw [extractBest_of_le rest s k (k + 1) ?hle]
    case hle =>
      intro x hx
      rcases List.mem_iff_getElem.mp hx with ⟨m, hm, rfl⟩
      exact hmax (m + 1) (Nat.succ_lt_succ hm)
    rfl
  | s :: rest, bs, bi, k, j + 1, hj, hmax, hgt, hfirst => by
    have hj2 : j < rest.length := Nat.lt_of_succ_lt_succ hj
    have hmax2 : ∀ m (hm : m < rest.length), rest[m] ≤ rest[j] :=
      fun m hm => hmax (m + 1) (Nat.succ_lt_succ hm)
    have hfirst2 : ∀ m (hm : m < rest.length), m < j → rest[m] < rest[j] :=
      fun m hm hmj => hfirst (m + 1) (Nat.succ_lt_succ hm) (Nat.succ_lt_succ hmj)
    have hadd : k + 1 + j = k + (j + 1) := by omega
    simp only [extractBest]
    by_cases hb : bs < s
    · rw [if_pos hb]
      have hrec := extractBest_first rest s k (k + 1) j hj2 hmax2
        (hfirst 0 (Nat.succ_pos _) (Nat.succ_pos j)) hfirst2
      rw [hrec, hadd]
      rfl
    · rw [if_neg hb]
      have hrec := extractBest_first rest bs bi (k + 1) j hj2 hmax2 hgt hfirst2
      rw [hrec, hadd]
      rfl

/-- The modelled extractOne returns the first choice achieving the maximal
score, with its score and index. -/
lemma extractOne_first (scorer : String → String → ℚ) (query : String)
    (names : List String) (j : Nat) (hj : j < names.length)
    (hmax : ∀ m (hm : m < names.length),
      scorer query names[m] ≤ scorer query names[j])
    (hfirst : ∀ m (hm : m < names.length), m < j →
      scorer query names[m] < scorer query names[j]) :
    extractOne scorer query names =
      some (names[j], scorer query names[j], j) := by
  cases names with
  | nil => exact absurd hj (Nat.not_lt_zero j)
  | cons c cs =>
    simp only [extractOne]
    cases j with
    | zero =>
      rw [extractBest_of_le (cs.map (scorer query)) (scorer query c) 0 1 ?hle]
      case hle =>
        intro x hx
        rcases List.mem_iff_getElem.mp hx with ⟨m, hm, rfl⟩
        rw [List.getElem_map]
        have hm2 : m < cs.length := by simpa using hm
        exact hmax (m + 1) (Nat.succ_lt_succ hm2)
      rfl
    | succ m =>
      have hm2 : m < cs.length := Nat.lt_of_succ_lt_succ hj
      have hmap : m < (cs.map (scorer query)).length := by simpa using hm2
      rw [extractBest_first (cs.map (scorer query)) (scorer query c) 0 1 m hmap
        ?hmax2 ?hgt2 ?hfirst2]
      case hmax2 =>
        intro i hi
        have hi2 : i < cs.length := by simpa using hi
        rw [List.getElem_map, List.getElem_map]
        exact hmax (i + 1) (Nat.succ_lt_succ hi2)
      case hgt2 =>
        rw [List.getElem_map]
        exact hfirst 0 (Nat.succ_pos _) (Nat.succ_pos m)
      case hfirst2 =>
        intro i hi hij
        have hi2 : i < cs.length := by simpa using hi
        rw [List.getElem_map, List.getElem_map]
        exact hfirst (i + 1) (Nat.succ_lt_succ hi2) (Nat.succ_lt_succ hij)
      have h1m : 1 + m = m + 1 := Nat.add_comm 1 m
      rw [List.getElem_map, h1m]
      rw [List.get?_eq_getElem?, List.getElem?_eq_getElem hj]
      rfl

/-- C9, counterexample.  The claim states that on a non-empty snapshot, find
returns the single item whose name scores highest when that score reaches
the threshold.  The source guards the result with Python truthiness of the
best-matching name (line 112), so a snapshot whose best item is named by the
empty string yields none even at the maximal score 100 >= 65. -/
theorem c9_truthiness_cex :
    (65 : ℚ) ≤ 100 ∧
    fuzzy_search_item (fun _ _ => (100 : ℚ)) "gem" [⟨"", 1, none⟩] 65 = none := by
  refine ⟨by decide, by decide⟩

/-- C9, amended: for every query, find on an empty snapshot returns none and
never errors; on a non-empty snapshot it returns the item whose name has the
highest score against the query — ties broken by first-encountered order in
the snapshot — provided that score is at least the threshold AND the
best-matching name is non-empty (Python truthiness of the matched string);
otherwise none. -/
theorem c9_fuzzy_find_first_argmax (scorer : String → String → ℚ)
    (query : String) (items : List Item) (threshold : ℚ) :
    (items = [] → fuzzy_search_item scorer query items threshold = none) ∧
    (∀ j (hj : j < items.length),
      (∀ m (hm : m < items.length),
        scorer query items[m].name ≤ scorer query items[j].name) →
      (∀ m (hm : m < items.length), m < j →
        scorer query items[m].name < scorer query items[j].name) →
      fuzzy_search_item scorer query items threshold =
        if items[j].name ≠ "" ∧ threshold ≤ scorer query items[j].name
        then some items[j] else none) := by
  constructor
  · intro h
    subst h
    rfl
  · intro j hj hmax hfirst
    cases items with
    | nil => exact absurd hj (Nat.not_lt_zero j)
    | cons it0 its =>
      simp only [fuzzy_search_item]
      have hjn : j < ((it0 :: its).map (fun it => it.name)).length := by simpa using hj
      rw [extractOne_first scorer query ((it0 :: its).map (fun it => it.name)) j hjn
        ?h1 ?h2]
      case h1 =>
        intro m hm
        have hm2 : m < (it0 :: its).length := by simpa using hm
        rw [List.getElem_map, List.getElem_map]
        exact hmax m hm2
      case h2 =>
        intro m hm hmj
        have hm2 : m < (it0 :: its).length := by simpa using hm
        rw [List.getElem_map, List.getElem_map]
        exact hfirst m hm2 hmj
      rw [List.getElem_map]
      change (if (it0 :: its)[j].name ≠ "" ∧
          threshold ≤ scorer query (it0 :: its)[j].name
        then (it0 :: its).get? j else none) = _
      rw [List.get?_eq_getElem?, List.getElem?_eq_getElem hj]

/-- C9 witness: a two-item snapshot where the second item scores 90 and the
first 10 against the query; find returns the second item. -/
theorem c9_fuzzy_find_witness :
    fuzzy_search_item (fun _ n => if n = "Blue Gem" then (90 : ℚ) else 10)
      "blue gem" [⟨"Pepe", 1, none⟩, ⟨"Blue Gem", 5000000, none⟩] 65 =
      some ⟨"Blue Gem", 5000000, none⟩ :=
  ((c9_fuzzy_find_first_argmax (fun _ n => if n = "Blue Gem" then (90 : ℚ) else 10)
      "blue gem" [⟨"Pepe", 1, none⟩, ⟨"Blue Gem", 5000000, none⟩] 65).2 1
      (by decide) (by decide) (by decide)).trans (by decide)

end Auction
